import Mathlib

/-!
Shallow embedding of the Kinetis RTC driver
(`arch/arm/src/kinetis/kinetis_rtc.c`).

Two views of the hardware are used:

* a register/driver state `KSt` recording the RTC registers touched by the
  driver, the `g_alarmcb` callback pointer, the list of callbacks that have
  been invoked, and a log of every `putreg32` performed — used for
  `up_rtc_settime` and the alarm operations;

* a tick-counter trace `trace : Nat → Nat` giving the free-running RTC tick
  count at the instant of each successive register read — used for the
  high-resolution `up_rtc_gettime` read loop, where the prescaler register
  TPR shows `ticks % F` and the seconds register TSR shows `ticks / F`
  for the configured counter frequency `F` (CONFIG_RTC_FREQUENCY).
-/

namespace KinetisRtc

/-- The RTC registers written or read by the driver. -/
inductive Reg
  | SR
  | TPR
  | TSR
  | TAR
  | IER
deriving DecidableEq

/-- RTC_SR_TCE, the time-counter-enable bit (from chip/kinetis_rtc.h,
which is outside src/; only non-zeroness matters to the driver logic). -/
def RTC_SR_TCE : Nat := 16

/-- RTC_IER_TAIE, the alarm-interrupt-enable bit (from chip/kinetis_rtc.h). -/
def RTC_IER_TAIE : Nat := 4

/-- errno EBUSY. -/
def EBUSY : Int := 16

/-- errno ENODATA. -/
def ENODATA : Int := 61

/-- OK return code. -/
def OK : Int := 0

/-- 2^32, the modulus of the 32-bit registers. -/
def U32 : Nat := 4294967296

/-- Driver-visible state: the five RTC registers, the `g_alarmcb` function
pointer (a `Nat`, with `0` encoding NULL as in C), the list of callback
pointers invoked so far, and the log of register writes performed. -/
structure KSt where
  sr : Nat
  tpr : Nat
  tsr : Nat
  tar : Nat
  ier : Nat
  alarmcb : Nat
  fired : List Nat
  writes : List (Reg × Nat)
deriving DecidableEq

/-- `putreg32(v, reg)`: store `v` in the register and append to the write log. -/
def putreg32 (v : Nat) (r : Reg) (s : KSt) : KSt :=
  let s1 :=
    match r with
    | Reg.SR => { s with sr := v }
    | Reg.TPR => { s with tpr := v }
    | Reg.TSR => { s with tsr := v }
    | Reg.TAR => { s with tar := v }
    | Reg.IER => { s with ier := v }
  { s1 with writes := s1.writes ++ [(r, v)] }

/-- State after `up_rtc_initialize`: counter enabled (SR = TCE), alarm
interrupt disabled, no alarm callback stored, empty logs. -/
def initSt : KSt :=
  { sr := RTC_SR_TCE, tpr := 0, tsr := 0, tar := 0, ier := 0,
    alarmcb := 0, fired := [], writes := [] }

/-- The nanosecond-to-prescaler conversion performed by `up_rtc_settime`:
`prescaler = tp->tv_nsec * (CONFIG_RTC_FREQUENCY / 1000000000)`,
in C integer arithmetic. -/
def code_fraction (F ns : Nat) : Nat := ns * (F / 1000000000)

/-- Modelled from the spec (for comparison with `code_fraction`): the spec
says the write path converts nanoseconds with the exact inverse of the read
path, `fraction = nanoseconds / (1000000000 / frequency)`, truncating. -/
def spec_fraction (F ns : Nat) : Nat := ns / (1000000000 / F)

/-- `up_rtc_settime`: stop the counter, write the prescaler register, write
the seconds register, restart the counter.  `seconds` and `prescaler` are
the `uint32_t` locals of the C function. -/
def up_rtc_settime (F sec ns : Nat) (s : KSt) : KSt × Int :=
  let seconds := sec % U32
  let prescaler := code_fraction F ns % U32
  let s1 := putreg32 0 Reg.SR s
  let s2 := putreg32 prescaler Reg.TPR s1
  let s3 := putreg32 seconds Reg.TSR s2
  let s4 := putreg32 RTC_SR_TCE Reg.SR s3
  (s4, OK)

/-- Low-resolution `up_rtc_time`: a single read of the seconds register. -/
def up_rtc_time (s : KSt) : Nat := s.tsr

/-- `kinetis_rtc_setalarm`: if `g_alarmcb` is NULL, store the callback,
program the alarm compare register, enable the alarm interrupt and return
OK; otherwise return `-EBUSY` and change nothing. -/
def kinetis_rtc_setalarm (sec cb : Nat) (s : KSt) : KSt × Int :=
  if s.alarmcb = 0 then
    let s1 := { s with alarmcb := cb }
    let s2 := putreg32 (sec % U32) Reg.TAR s1
    let s3 := putreg32 RTC_IER_TAIE Reg.IER s2
    (s3, OK)
  else
    (s, -EBUSY)

/-- `kinetis_rtc_cancelalarm`: if `g_alarmcb` is non-NULL, clear it and
disable the alarm interrupt; otherwise return `-ENODATA`. -/
def kinetis_rtc_cancelalarm (s : KSt) : KSt × Int :=
  if s.alarmcb ≠ 0 then
    let s1 := { s with alarmcb := 0 }
    let s2 := putreg32 0 Reg.IER s1
    (s2, OK)
  else
    (s, -ENODATA)

/-- `kinetis_rtc_interrupt`: if `g_alarmcb` is non-NULL, invoke it (recorded
in `fired`) and set it to NULL; then unconditionally clear the alarm compare
register and disable the alarm interrupt. -/
def kinetis_rtc_interrupt (s : KSt) : KSt × Int :=
  let s1 :=
    if s.alarmcb ≠ 0 then
      { s with fired := s.fired ++ [s.alarmcb], alarmcb := 0 }
    else s
  let s2 := putreg32 0 Reg.TAR s1
  let s3 := putreg32 0 Reg.IER s2
  (s3, OK)

/-- The operations that mutate the alarm slot. -/
inductive Op
  | setalarm (sec cb : Nat)
  | cancel
  | irq
deriving DecidableEq

/-- One step of the alarm-slot state machine. -/
def step (s : KSt) : Op → KSt
  | Op.setalarm sec cb => (kinetis_rtc_setalarm sec cb s).1
  | Op.cancel => (kinetis_rtc_cancelalarm s).1
  | Op.irq => (kinetis_rtc_interrupt s).1

/-- Run a sequence of alarm operations. -/
def run (s : KSt) : List Op → KSt
  | [] => s
  | op :: ops => run (step s op) ops

/-- `true` unless the operation is a `setalarm` with a NULL callback. -/
def opNonNull : Op → Bool
  | Op.setalarm _ cb => cb ≠ 0
  | _ => true

/-- Tick count corresponding to register contents: `TSR * F + TPR`. -/
def regTicks (F : Nat) (s : KSt) : Nat := s.tsr * F + s.tpr

/-- Seconds register as seen at the `n`-th read of a tick trace. -/
def TSRread (F : Nat) (trace : Nat → Nat) (n : Nat) : Nat := trace n / F

/-- Prescaler register as seen at the `n`-th read of a tick trace. -/
def TPRread (F : Nat) (trace : Nat → Nat) (n : Nat) : Nat := trace n % F

/-- The three-way read loop of `up_rtc_gettime`: iteration `k` reads the
prescaler, then seconds, then the prescaler again (reads `3k`, `3k+1`,
`3k+2` of the trace) and retries while the first prescaler reading exceeds
the second.  `fuel` bounds the number of iterations; `none` means the fuel
ran out before a consistent pair was observed. -/
def gettimeLoop (F : Nat) (trace : Nat → Nat) : Nat → Nat → Option (Nat × Nat)
  | 0, _ => none
  | fuel + 1, k =>
    let prescaler := TPRread F trace (3 * k)
    let seconds := TSRread F trace (3 * k + 1)
    let prescaler2 := TPRread F trace (3 * k + 2)
    if prescaler > prescaler2 then gettimeLoop F trace fuel (k + 1)
    else some (seconds, prescaler * (1000000000 / F))

/-- `up_rtc_gettime`: run the read loop from iteration 0 and return
`(tv_sec, tv_nsec)` with `tv_nsec = prescaler * (1000000000 / F)`. -/
def up_rtc_gettime (F : Nat) (trace : Nat → Nat) (fuel : Nat) :
    Option (Nat × Nat) :=
  gettimeLoop F trace fuel 0

/-- A constant trace (hardware does not tick between reads). -/
def flatTrace : Nat → Nat := fun _ => 37

/-- At most one prescaler wrap-around per loop iteration: between the first
read of iteration `k` and the first read of iteration `k+1` the seconds
counter advances by at most one. -/
def atMostOneWrapPerIter (F : Nat) (trace : Nat → Nat) : Prop :=
  ∀ k, trace (3 * (k + 1)) / F - trace (3 * k) / F ≤ 1

/-- A trace on which every loop iteration straddles exactly one prescaler
wrap (frequency 4): iteration `k` sees ticks `4k+3`, `4k+4`, `4k+5`. -/
def wrapEveryIterTrace (n : Nat) : Nat := 4 * (n / 3) + 3 + n % 3

/-- Claim C4: every `up_rtc_settime` call produces exactly this register
write trace, in order: stop the counter (SR := 0), write the prescaler
register, write the seconds register, restart the counter (SR := TCE); in
particular the prescaler (fractional) write precedes the seconds write. -/
theorem settime_write_order (F sec ns : Nat) (s : KSt) :
    (up_rtc_settime F sec ns s).1.writes =
      s.writes ++
        [(Reg.SR, 0), (Reg.TPR, code_fraction F ns % U32),
         (Reg.TSR, sec % U32), (Reg.SR, RTC_SR_TCE)] := by
  simp [up_rtc_settime, putreg32]

/-- Claim C5: `kinetis_rtc_setalarm` with the slot already occupied returns
`-EBUSY` and changes nothing at all; with the slot free it returns OK,
stores the callback, programs the alarm compare register and enables the
alarm interrupt, and its write trace touches only TAR and IER — never the
status/control register SR, so the running counter is untouched. -/
theorem setalarm_spec (sec cb : Nat) (s : KSt) :
    (s.alarmcb ≠ 0 → kinetis_rtc_setalarm sec cb s = (s, -EBUSY)) ∧
    (s.alarmcb = 0 →
      (kinetis_rtc_setalarm sec cb s).2 = OK ∧
      (kinetis_rtc_setalarm sec cb s).1.alarmcb = cb ∧
      (kinetis_rtc_setalarm sec cb s).1.tar = sec % U32 ∧
      (kinetis_rtc_setalarm sec cb s).1.ier = RTC_IER_TAIE ∧
      (kinetis_rtc_setalarm sec cb s).1.sr = s.sr ∧
      (kinetis_rtc_setalarm sec cb s).1.tsr = s.tsr ∧
      (kinetis_rtc_setalarm sec cb s).1.tpr = s.tpr ∧
      (kinetis_rtc_setalarm sec cb s).1.writes =
        s.writes ++ [(Reg.TAR, sec % U32), (Reg.IER, RTC_IER_TAIE)]) := by
  constructor
  · intro h
    simp [kinetis_rtc_setalarm, h]
  · intro h
    simp [kinetis_rtc_setalarm, h, putreg32]

/-- Claim C5 witness: a first alarm is accepted from the initial state, and
a second `setalarm` on the resulting occupied slot is rejected unchanged. -/
theorem setalarm_spec_witness :
    ((kinetis_rtc_setalarm 5 7 initSt).2 = OK ∧
      (kinetis_rtc_setalarm 5 7 initSt).1.alarmcb = 7 ∧
      (kinetis_rtc_setalarm 5 7 initSt).1.tar = 5 % U32 ∧
      (kinetis_rtc_setalarm 5 7 initSt).1.ier = RTC_IER_TAIE ∧
      (kinetis_rtc_setalarm 5 7 initSt).1.sr = initSt.sr ∧
      (kinetis_rtc_setalarm 5 7 initSt).1.tsr = initSt.tsr ∧
      (kinetis_rtc_setalarm 5 7 initSt).1.tpr = initSt.tpr ∧
      (kinetis_rtc_setalarm 5 7 initSt).1.writes =
        initSt.writes ++ [(Reg.TAR, 5 % U32), (Reg.IER, RTC_IER_TAIE)]) ∧
    kinetis_rtc_setalarm 9 11 (kinetis_rtc_setalarm 5 7 initSt).1 =
      ((kinetis_rtc_setalarm 5 7 initSt).1, -EBUSY) :=
  ⟨(setalarm_spec 5 7 initSt).2 rfl,
   (setalarm_spec 9 11 (kinetis_rtc_setalarm 5 7 initSt).1).1 (by decide)⟩

/-- Claim C6: `kinetis_rtc_cancelalarm` with an empty slot returns
`-ENODATA` and changes nothing; with an occupied slot it returns OK, clears
the stored callback and disables the alarm interrupt while leaving the
alarm compare register (and everything else) unchanged.  In particular a
fresh, never-armed driver state is rejected with `-ENODATA`. -/
theorem cancelalarm_spec (s : KSt) :
    (s.alarmcb = 0 → kinetis_rtc_cancelalarm s = (s, -ENODATA)) ∧
    (s.alarmcb ≠ 0 →
      (kinetis_rtc_cancelalarm s).2 = OK ∧
      (kinetis_rtc_cancelalarm s).1.alarmcb = 0 ∧
      (kinetis_rtc_cancelalarm s).1.ier = 0 ∧
      (kinetis_rtc_cancelalarm s).1.tar = s.tar ∧
      (kinetis_rtc_cancelalarm s).1.sr = s.sr ∧
      (kinetis_rtc_cancelalarm s).1.tsr = s.tsr ∧
      (kinetis_rtc_cancelalarm s).1.tpr = s.tpr ∧
      (kinetis_rtc_cancelalarm s).1.writes = s.writes ++ [(Reg.IER, 0)]) ∧
    kinetis_rtc_cancelalarm initSt = (initSt, -ENODATA) := by
  refine ⟨fun h => ?_, fun h => ?_, by decide⟩
  · simp [kinetis_rtc_cancelalarm, h]
  · simp [kinetis_rtc_cancelalarm, h, putreg32]

/-- Claim C6 witness: cancelling an armed alarm clears the slot and the
interrupt enable but leaves the compare register; the trailing conjunct of
the theorem is closed already. -/
theorem cancelalarm_spec_witness :
    (kinetis_rtc_cancelalarm (kinetis_rtc_setalarm 5 7 initSt).1).2 = OK ∧
    (kinetis_rtc_cancelalarm (kinetis_rtc_setalarm 5 7 initSt).1).1.alarmcb
      = 0 ∧
    (kinetis_rtc_cancelalarm (kinetis_rtc_setalarm 5 7 initSt).1).1.ier = 0 ∧
    (kinetis_rtc_cancelalarm (kinetis_rtc_setalarm 5 7 initSt).1).1.tar =
      (kinetis_rtc_setalarm 5 7 initSt).1.tar ∧
    (kinetis_rtc_cancelalarm (kinetis_rtc_setalarm 5 7 initSt).1).1.sr =
      (kinetis_rtc_setalarm 5 7 initSt).1.sr ∧
    (kinetis_rtc_cancelalarm (kinetis_rtc_setalarm 5 7 initSt).1).1.tsr =
      (kinetis_rtc_setalarm 5 7 initSt).1.tsr ∧
    (kinetis_rtc_cancelalarm (kinetis_rtc_setalarm 5 7 initSt).1).1.tpr =
      (kinetis_rtc_setalarm 5 7 initSt).1.tpr ∧
    (kinetis_rtc_cancelalarm (kinetis_rtc_setalarm 5 7 initSt).1).1.writes =
      (kinetis_rtc_setalarm 5 7 initSt).1.writes ++ [(Reg.IER, 0)] :=
  (cancelalarm_spec (kinetis_rtc_setalarm 5 7 initSt).1).2.1 (by decide)

/-- Claim C7: the interrupt handler invokes the stored callback exactly once
(appending exactly that one pointer to the invocation list) when one is
present and invokes nothing otherwise; in every case it afterwards clears
the compare register, disables the alarm interrupt and leaves the slot
empty, so any subsequent `setalarm` succeeds. -/
theorem interrupt_spec (s : KSt) :
    (s.alarmcb ≠ 0 →
      (kinetis_rtc_interrupt s).1.fired = s.fired ++ [s.alarmcb]) ∧
    (s.alarmcb = 0 → (kinetis_rtc_interrupt s).1.fired = s.fired) ∧
    (kinetis_rtc_interrupt s).1.alarmcb = 0 ∧
    (kinetis_rtc_interrupt s).1.tar = 0 ∧
    (kinetis_rtc_interrupt s).1.ier = 0 ∧
    (kinetis_rtc_interrupt s).1.writes =
      s.writes ++ [(Reg.TAR, 0), (Reg.IER, 0)] ∧
    ∀ sec cb, (kinetis_rtc_setalarm sec cb (kinetis_rtc_interrupt s).1).2
      = OK := by
  refine ⟨fun h => ?_, fun h => ?_, ?_, ?_, ?_, ?_, fun sec cb => ?_⟩ <;>
    by_cases hcb : s.alarmcb = 0 <;>
    simp [kinetis_rtc_interrupt, kinetis_rtc_setalarm, putreg32, hcb] <;>
    simp_all

/-- Claim C7 witness: firing an armed alarm invokes its callback once and
returns the slot to idle, after which a new alarm is accepted. -/
theorem interrupt_spec_witness :
    (kinetis_rtc_interrupt (kinetis_rtc_setalarm 5 7 initSt).1).1.fired =
      (kinetis_rtc_setalarm 5 7 initSt).1.fired ++
        [(kinetis_rtc_setalarm 5 7 initSt).1.alarmcb] :=
  (interrupt_spec (kinetis_rtc_setalarm 5 7 initSt).1).1 (by decide)

/-- Claim C10: `kinetis_rtc_setalarm` with a NULL callback on an empty slot
succeeds, programs the compare register and enables the alarm interrupt,
yet the slot still tests as empty: a second `setalarm` also succeeds
instead of returning busy, and the interrupt handler invokes no callback —
occupancy is exactly the NULL test on the stored pointer. -/
theorem setalarm_null_callback (sec sec2 cb2 : Nat) (s : KSt)
    (h : s.alarmcb = 0) :
    (kinetis_rtc_setalarm sec 0 s).2 = OK ∧
    (kinetis_rtc_setalarm sec 0 s).1.tar = sec % U32 ∧
    (kinetis_rtc_setalarm sec 0 s).1.ier = RTC_IER_TAIE ∧
    (kinetis_rtc_setalarm sec 0 s).1.alarmcb = 0 ∧
    (kinetis_rtc_setalarm sec2 cb2 (kinetis_rtc_setalarm sec 0 s).1).2
      = OK ∧
    (kinetis_rtc_interrupt (kinetis_rtc_setalarm sec 0 s).1).1.fired
      = s.fired := by
  simp [kinetis_rtc_setalarm, kinetis_rtc_interrupt, putreg32, h]

/-- Claim C10 witness: arming with a NULL callback at the initial state. -/
theorem setalarm_null_callback_witness :
    (kinetis_rtc_setalarm 5 0 initSt).2 = OK ∧
    (kinetis_rtc_setalarm 5 0 initSt).1.tar = 5 % U32 ∧
    (kinetis_rtc_setalarm 5 0 initSt).1.ier = RTC_IER_TAIE ∧
    (kinetis_rtc_setalarm 5 0 initSt).1.alarmcb = 0 ∧
    (kinetis_rtc_setalarm 9 11 (kinetis_rtc_setalarm 5 0 initSt).1).2
      = OK ∧
    (kinetis_rtc_interrupt (kinetis_rtc_setalarm 5 0 initSt).1).1.fired
      = initSt.fired :=
  setalarm_null_callback 5 9 11 initSt rfl

/-- The alarm-slot invariant of claim C8: the stored callback is non-NULL
exactly when the alarm interrupt is enabled. -/
def AlarmInv (s : KSt) : Prop := s.alarmcb ≠ 0 ↔ s.ier ≠ 0

instance (s : KSt) : Decidable (AlarmInv s) :=
  inferInstanceAs (Decidable (s.alarmcb ≠ 0 ↔ s.ier ≠ 0))

/-- Claim C8 counterexample: a single `setalarm` step with a NULL callback,
allowed by the code, reaches a state where the alarm interrupt is enabled
(hardware armed) but the stored callback is empty, so the claimed
invariant fails on a reachable state. -/
theorem alarm_invariant_cex :
    ¬ AlarmInv (run initSt [Op.setalarm 5 0]) := by
  decide

/-- Auxiliary: each alarm operation with a non-NULL `setalarm` callback
preserves the alarm-slot invariant. -/
theorem step_preserves_inv (s : KSt) (op : Op) (hop : opNonNull op = true)
    (hs : AlarmInv s) : AlarmInv (step s op) := by
  cases op with
  | setalarm sec cb =>
      by_cases h : s.alarmcb = 0 <;>
        simp_all [step, kinetis_rtc_setalarm, putreg32, opNonNull, AlarmInv,
          RTC_IER_TAIE]
  | cancel =>
      by_cases h : s.alarmcb = 0 <;>
        simp_all [step, kinetis_rtc_cancelalarm, putreg32, AlarmInv]
  | irq =>
      by_cases h : s.alarmcb = 0 <;>
        simp_all [step, kinetis_rtc_interrupt, putreg32, AlarmInv]

/-- Auxiliary: the invariant is inductive along any run of non-NULL ops. -/
theorem run_preserves_inv (ops : List Op) :
    ∀ s, (∀ op ∈ ops, opNonNull op = true) → AlarmInv s →
      AlarmInv (run s ops) := by
  induction ops with
  | nil => intro s _ hs; exact hs
  | cons op ops ih =>
      intro s hops hs
      exact ih (step s op) (fun o ho => hops o (List.mem_cons_of_mem _ ho))
        (step_preserves_inv s op (hops op (List.mem_cons_self _ _)) hs)

/-- Claim C8 amended: over every sequence of `setalarm`/`cancelalarm`/
interrupt steps from the initial state in which each `setalarm` passes a
non-NULL callback, every reachable state satisfies the invariant: the
stored callback is non-empty iff the alarm interrupt is enabled
(hardware armed and not yet fired or cancelled). -/
theorem alarm_invariant (ops : List Op)
    (h : ∀ op ∈ ops, opNonNull op = true) :
    AlarmInv (run initSt ops) :=
  run_preserves_inv ops initSt h (by decide)

/-- Claim C8 witness: a concrete arm/fire/arm/cancel run preserving the
invariant. -/
theorem alarm_invariant_witness :
    AlarmInv (run initSt
      [Op.setalarm 5 7, Op.irq, Op.setalarm 3 2, Op.cancel]) :=
  alarm_invariant [Op.setalarm 5 7, Op.irq, Op.setalarm 3 2, Op.cancel]
    (by decide)

/-- Auxiliary: any successful run of the read loop returns the values read
in some iteration `j ≥ k` whose two prescaler readings are non-decreasing:
seconds from read `3j+1` and the nanoseconds derived from read `3j`. -/
theorem gettimeLoop_sound (F : Nat) (trace : Nat → Nat) :
    ∀ fuel k sec ns, gettimeLoop F trace fuel k = some (sec, ns) →
      ∃ j, k ≤ j ∧ TPRread F trace (3 * j) ≤ TPRread F trace (3 * j + 2) ∧
        sec = TSRread F trace (3 * j + 1) ∧
        ns = TPRread F trace (3 * j) * (1000000000 / F) := by
  intro fuel
  induction fuel with
  | zero => intro k sec ns h; simp [gettimeLoop] at h
  | succ n ih =>
      intro k sec ns h
      simp only [gettimeLoop] at h
      split at h
      · obtain ⟨j, hkj, hrest⟩ := ih (k + 1) sec ns h
        exact ⟨j, Nat.le_of_succ_le hkj, hrest⟩
      · next hgt =>
          simp only [Option.some.injEq, Prod.mk.injEq] at h
          exact ⟨k, Nat.le_refl k, Nat.le_of_not_lt hgt, h.1.symm, h.2.symm⟩

/-- Auxiliary: if tick counts `c1 ≤ c2 ≤ c3` are observed and no wrap
separates the first and third remainders (`c1 % F ≤ c3 % F`), then the
second of `c2` paired with the remainder of `c1` is the decomposition of
an actual tick count lying between `c1` and `c3`. -/
theorem consistent_pair_exists (F c1 c2 c3 : Nat) (hF : 0 < F)
    (h12 : c1 ≤ c2) (h23 : c2 ≤ c3) (hacc : c1 % F ≤ c3 % F) :
    ∃ c, c1 ≤ c ∧ c ≤ c3 ∧ c / F = c2 / F ∧ c % F = c1 % F := by
  refine ⟨c1 % F + F * (c2 / F), ?_, ?_, ?_, ?_⟩
  · calc c1 = c1 % F + F * (c1 / F) := (Nat.mod_add_div c1 F).symm
      _ ≤ c1 % F + F * (c2 / F) :=
          Nat.add_le_add_left
            (Nat.mul_le_mul (Nat.le_refl F) (Nat.div_le_div_right h12)) _
  · calc c1 % F + F * (c2 / F) ≤ c3 % F + F * (c3 / F) :=
          Nat.add_le_add hacc
            (Nat.mul_le_mul (Nat.le_refl F) (Nat.div_le_div_right h23))
      _ = c3 := Nat.mod_add_div c3 F
  · rw [Nat.add_mul_div_left _ _ hF, Nat.div_eq_of_lt (Nat.mod_lt c1 hF),
      Nat.zero_add]
  · rw [Nat.add_mul_mod_self_left, Nat.mod_eq_of_lt (Nat.mod_lt c1 hF)]

/-- Claim C1: whenever the high-resolution read loop returns a pair
`(sec, ns)` over a monotone tick trace, that pair actually existed: there
is a tick count `c` lying between the first and third reads of the
accepting iteration whose register decomposition (`c / F` seconds,
`c % F` prescaler ticks) yields exactly the returned seconds and
nanoseconds — no torn pair is ever returned. -/
theorem gettime_no_tear (F : Nat) (trace : Nat → Nat) (fuel sec ns : Nat)
    (hF : 0 < F) (hmono : Monotone trace)
    (h : up_rtc_gettime F trace fuel = some (sec, ns)) :
    ∃ k c, trace (3 * k) ≤ c ∧ c ≤ trace (3 * k + 2) ∧
      sec = c / F ∧ ns = c % F * (1000000000 / F) := by
  obtain ⟨j, _, hacc, hsec, hns⟩ := gettimeLoop_sound F trace fuel 0 sec ns h
  simp only [TSRread, TPRread] at hacc hsec hns
  obtain ⟨c, hc1, hc3, hdiv, hmod⟩ :=
    consistent_pair_exists F (trace (3 * j)) (trace (3 * j + 1))
      (trace (3 * j + 2)) hF (hmono (by omega)) (hmono (by omega)) hacc
  refine ⟨j, c, hc1, hc3, ?_, ?_⟩
  · rw [hsec]; exact hdiv.symm
  · rw [hns, hmod]

/-- Claim C1 witness: over a constant trace (tick count 37, frequency 4)
the read returns `(9, 250000000)` and the guarantee instantiates. -/
theorem gettime_no_tear_witness :
    ∃ k c, flatTrace (3 * k) ≤ c ∧ c ≤ flatTrace (3 * k + 2) ∧
      9 = c / 4 ∧ 250000000 = c % 4 * (1000000000 / 4) :=
  gettime_no_tear 4 flatTrace 1 9 250000000 (by decide) monotone_const
    (by decide)

/-- Auxiliary: the tick counts seen at the three reads of iteration `k` of
the wrap-every-iteration trace. -/
theorem wrapEveryIterTrace_reads (k : Nat) :
    wrapEveryIterTrace (3 * k) = 4 * k + 3 ∧
    wrapEveryIterTrace (3 * k + 1) = 4 * k + 4 ∧
    wrapEveryIterTrace (3 * k + 2) = 4 * k + 5 := by
  unfold wrapEveryIterTrace
  omega

/-- Auxiliary: on the wrap-every-iteration trace every iteration observes a
decreasing prescaler pair, so the loop never returns, whatever the fuel. -/
theorem gettimeLoop_wrapEvery_none :
    ∀ fuel k, gettimeLoop 4 wrapEveryIterTrace fuel k = none := by
  intro fuel
  induction fuel with
  | zero => intro k; rfl
  | succ n ih =>
      intro k
      have ha : TPRread 4 wrapEveryIterTrace (3 * k) = 3 := by
        simp only [TPRread, (wrapEveryIterTrace_reads k).1]
        omega
      have hb : TPRread 4 wrapEveryIterTrace (3 * k + 2) = 1 := by
        simp only [TPRread, (wrapEveryIterTrace_reads k).2.2]
        omega
      simp [gettimeLoop, ha, hb, ih]

/-- Claim C9 counterexample: the wrap-every-iteration trace is monotone,
advances the seconds counter by at most one per loop iteration (so the
prescaler wraps at most once per iteration), yet the three-way read loop
never exits: every iteration sees prescaler readings 3 then 1. -/
theorem gettime_termination_cex :
    Monotone wrapEveryIterTrace ∧
    atMostOneWrapPerIter 4 wrapEveryIterTrace ∧
    ∀ fuel, up_rtc_gettime 4 wrapEveryIterTrace fuel = none := by
  refine ⟨monotone_nat_of_le_succ fun n => ?_, fun k => ?_, fun fuel => ?_⟩
  · unfold wrapEveryIterTrace
    omega
  · have h1 := (wrapEveryIterTrace_reads (k + 1)).1
    have h2 := (wrapEveryIterTrace_reads k).1
    unfold atMostOneWrapPerIter at *
    omega
  · exact gettimeLoop_wrapEvery_none fuel 0

/-- Auxiliary: if iteration `k + n` observes a non-decreasing prescaler
pair, `n + 1` units of fuel suffice starting from iteration `k`. -/
theorem gettimeLoop_term (F : Nat) (trace : Nat → Nat) :
    ∀ n k,
      TPRread F trace (3 * (k + n)) ≤ TPRread F trace (3 * (k + n) + 2) →
      ∃ r, gettimeLoop F trace (n + 1) k = some r := by
  intro n
  induction n with
  | zero =>
      intro k hk
      rw [Nat.add_zero] at hk
      exact ⟨(TSRread F trace (3 * k + 1),
              TPRread F trace (3 * k) * (1000000000 / F)),
        by simp [gettimeLoop, Nat.not_lt.mpr hk]⟩
  | succ m ih =>
      intro k hk
      by_cases hgt : TPRread F trace (3 * k + 2) < TPRread F trace (3 * k)
      · have hk2 : TPRread F trace (3 * (k + 1 + m)) ≤
            TPRread F trace (3 * (k + 1 + m) + 2) := by
          rw [show k + 1 + m = k + (m + 1) by omega]
          exact hk
        obtain ⟨r, hr⟩ := ih (k + 1) hk2
        refine ⟨r, ?_⟩
        simp only [gettimeLoop]
        rw [if_pos hgt]
        exact hr
      · exact ⟨(TSRread F trace (3 * k + 1),
                TPRread F trace (3 * k) * (1000000000 / F)),
          by simp [gettimeLoop, hgt]⟩

/-- Claim C9 amended: over a monotone trace that wraps at most once per
iteration, the read loop terminates provided additionally some iteration
observes a non-decreasing prescaler pair (i.e. some three-way read window
is not straddled by a wrap); it then returns a result with finite fuel. -/
theorem gettime_loop_terminates (F : Nat) (trace : Nat → Nat)
    (_hmono : Monotone trace) (_hwrap : atMostOneWrapPerIter F trace)
    (hclean : ∃ k,
      TPRread F trace (3 * k) ≤ TPRread F trace (3 * k + 2)) :
    ∃ fuel r, up_rtc_gettime F trace fuel = some r := by
  obtain ⟨k, hk⟩ := hclean
  obtain ⟨r, hr⟩ := gettimeLoop_term F trace k 0 (by simpa using hk)
  exact ⟨k + 1, r, hr⟩

/-- Claim C9 witness: the constant trace satisfies all hypotheses and the
loop terminates on it. -/
theorem gettime_loop_terminates_witness :
    ∃ fuel r, up_rtc_gettime 4 flatTrace fuel = some r :=
  gettime_loop_terminates 4 flatTrace monotone_const
    (fun _ => by norm_num [flatTrace]) ⟨0, by decide⟩

/-- Claim C3: the nanosecond-to-prescaler conversion of `up_rtc_settime`
is `ns * (F / 1000000000)`, not the inverse `ns / (1000000000 / F)` of the
read path: at frequency 32768 with 500000000 ns the code writes prescaler
0 while the spec formula gives 16384. -/
theorem settime_fraction_bug :
    code_fraction 32768 500000000 = 0 ∧
    spec_fraction 32768 500000000 = 16384 ∧
    (up_rtc_settime 32768 0 500000000 initSt).1.tpr ≠
      spec_fraction 32768 500000000 := by
  decide

/-- Claim C2: the set-then-get round trip at frequency 32768 for
t = (0 s, 500000000 ns), with no ticks elapsing between the calls: the
low-resolution read returns the seconds exactly, but the high-resolution
read returns a fraction of 0 ns — off by far more than one tick
(one tick is 1000000000 / 32768 = 30517 ns) — because `up_rtc_settime`
zeroes the prescaler register. -/
theorem settime_gettime_roundtrip_bug :
    up_rtc_time (up_rtc_settime 32768 0 500000000 initSt).1 = 0 ∧
    up_rtc_gettime 32768
      (fun _ => regTicks 32768 (up_rtc_settime 32768 0 500000000 initSt).1)
      1 = some (0, 0) ∧
    ¬ (500000000 - 0 ≤ 1000000000 / 32768) := by
  decide

end KinetisRtc
